import Mathlib

set_option linter.unusedTactic false

/-!
Verification development for the UD HPC Slurm add-ons repository
(job_submit/udhpc admission plugin and gridengine_compat SPANK plugin).

The definitions below are a shallow embedding of the C sources:
  - the SGE directive scanner and job-descriptor transformer of the
    job_submit plugin (src/unnamed/part_003, the current variant of
    src/job_submit/job_submit_udhpc.c),
  - the admission policy pass (job_submit in the same file),
  - the NSLOTS per-node CPU-count decoder and the per-job scratch
    directory derivation of the SPANK plugin (src/spank/gridengine_compat.c).

C strings are modelled as List Char (the NUL terminator is the end of the
list; reading the character at end-of-list yields the NUL character).
Machine integers are modelled as Nat or Int with explicit truncation where
an assignment narrows the width.  Loops whose progress is by pointer
arithmetic are modelled with an explicit fuel argument that is always
initialized larger than the scanned text, so the fuel never runs out.
-/

namespace UdSlurm

/-! ## Slurm constants (from slurm.h, values used by the plugin) -/

def NO_VAL : Nat := 4294967294
def NO_VAL16 : Nat := 65534
def NO_VAL64 : Nat := 18446744073709551614
def MEM_PER_CPU : Nat := 9223372036854775808
def MAIL_JOB_BEGIN : Nat := 1
def MAIL_JOB_END : Nat := 2
def MAIL_JOB_FAIL : Nat := 4
def MAIL_JOB_REQUEUE : Nat := 8
def JOB_SHARED_MCS : Nat := 3
def GRES_ENFORCE_BIND : Nat := 8192
/-- Sentinel step id marking the batch (whole-job) step. -/
def SLURM_BATCH_SCRIPT : Nat := 4294967291

/-! ## Plugin configuration constants (part_003, default build values) -/

def udhpc_base_gid : Nat := 500
def udhpc_min_mem_mb : Nat := 1024
def udhpc_workgroup_token : List Char := "_workgroup_".toList

/-! ## C character classification and string helpers -/

/-- The NUL character: what a C scan reads at the end of a string. -/
def cNul : Char := Char.ofNat 0
def cVTab : Char := Char.ofNat 11
def cFeed : Char := Char.ofNat 12
def cQuote : Char := Char.ofNat 34
def cApos : Char := Char.ofNat 39
def cBackslash : Char := Char.ofNat 92

/-- C isspace over the characters that can occur here. -/
def cIsSpace (c : Char) : Bool :=
  c = ' ' || c = '\t' || c = '\n' || c = cVTab || c = cFeed || c = '\r'

/-- Character a C scan reads at the head of the remaining string. -/
def hd0 (l : List Char) : Char := l.headD cNul

/-- Character a C scan reads at offset i of the remaining string. -/
def cAt (l : List Char) (i : Nat) : Char := l.getD i cNul

/-! ## strtol model

strtol / strtoll are modelled exactly save for overflow saturation, which
cannot occur for the values exercised here: skip leading whitespace, an
optional sign, then digits in the requested base (base 0 selects hex after
0x, octal after a leading 0, decimal otherwise).  The result is the parsed
value, the rest of the string after the last digit consumed, and whether
any conversion was performed (endptr moved past the start). -/

def digitsValue (p : Char → Bool) (base : Nat) (v : Char → Nat) :
    List Char → Nat → Nat × List Char
  | [], acc => (acc, [])
  | c :: t, acc => if p c then digitsValue p base v t (acc * base + v c) else (acc, c :: t)

def isOctDigit (c : Char) : Bool := '0' ≤ c && c ≤ '7'

def hexVal (c : Char) : Nat :=
  if c.isDigit then c.toNat - 48
  else if 'a' ≤ c && c ≤ 'f' then c.toNat - 87
  else c.toNat - 55

def isHexDigitC (c : Char) : Bool :=
  c.isDigit || ('a' ≤ c && c ≤ 'f') || ('A' ≤ c && c ≤ 'F')

def decVal (c : Char) : Nat := c.toNat - 48

/-- strtol with base 10. -/
def strtol10 (l : List Char) : Int × List Char × Bool :=
  let l1 := l.dropWhile cIsSpace
  let (neg, l2) :=
    match l1 with
    | '-' :: t => (true, t)
    | '+' :: t => (false, t)
    | _ => (false, l1)
  if (hd0 l2).isDigit then
    let (n, rest) := digitsValue Char.isDigit 10 decVal l2 0
    ((if neg then -(n : Int) else (n : Int)), rest, true)
  else
    (0, l, false)

/-- strtol / strtoll with base 0 (hex after 0x, octal after 0, else decimal). -/
def strtol0 (l : List Char) : Int × List Char × Bool :=
  let l1 := l.dropWhile cIsSpace
  let (neg, l2) :=
    match l1 with
    | '-' :: t => (true, t)
    | '+' :: t => (false, t)
    | _ => (false, l1)
  match l2 with
  | '0' :: 'x' :: t =>
    if isHexDigitC (hd0 t) then
      let (n, rest) := digitsValue isHexDigitC 16 hexVal t 0
      ((if neg then -(n : Int) else (n : Int)), rest, true)
    else
      (0, 'x' :: t, true)
  | '0' :: 'X' :: t =>
    if isHexDigitC (hd0 t) then
      let (n, rest) := digitsValue isHexDigitC 16 hexVal t 0
      ((if neg then -(n : Int) else (n : Int)), rest, true)
    else
      (0, 'X' :: t, true)
  | '0' :: t =>
    let (n, rest) := digitsValue isOctDigit 8 (fun c => c.toNat - 48) t 0
    ((if neg then -(n : Int) else (n : Int)), rest, true)
  | c :: t =>
    if c.isDigit then
      let (n, rest) := digitsValue Char.isDigit 10 decVal (c :: t) 0
      ((if neg then -(n : Int) else (n : Int)), rest, true)
    else
      (0, l, false)
  | [] => (0, l, false)

/-! ## Typed value converters (part_003) -/

/-- Convert a byte count to MiB, rounding any remainder up
(the expression v / 1048576 + ((v % 1048576) ? 1 : 0) of the source). -/
def mem_to_mib (bytes : Int) : Int :=
  bytes / 1048576 + (if bytes % 1048576 = 0 then 0 else 1)

/-- Clamp a positive MiB count below the configured minimum up to it. -/
def mem_clamp (v : Int) : Int :=
  if 0 < v ∧ v < (udhpc_min_mem_mb : Int) then (udhpc_min_mem_mb : Int) else v

/-- job_submit_sge_parse_memory: strtoll base 0, then the fallthrough
suffix multipliers (G/M/K binary, g/m/k decimal), ceiling conversion to
MiB and the minimum clamp.  Returns none where the C returns 0. -/
def job_submit_sge_parse_memory (s : List Char) : Option Nat :=
  if s = [] then none
  else
    let (v, e, consumed) := strtol0 s
    if 0 ≤ v ∧ consumed then
      let bytes : Int :=
        match hd0 e with
        | 'G' => v * 1073741824
        | 'M' => v * 1048576
        | 'K' => v * 1024
        | 'g' => v * 1000000000
        | 'm' => v * 1000000
        | 'k' => v * 1000
        | _ => v
      some (mem_clamp (mem_to_mib bytes)).toNat
    else none

/-- job_submit_sge_parse_time: either an H:M:S triple or bare seconds,
summed and ceiling-rounded to minutes.  The C computes the ceiling with
doubles; for every representable input in range that computation is the
exact integer ceiling modelled here.  Returns none where the C returns 0. -/
def job_submit_sge_parse_time (s : List Char) : Option Nat :=
  if s = [] then none
  else
    let (v, e, consumed) := strtol0 s
    let triple : Option (Int × Int × Int) :=
      if hd0 e = ':' then
        let t0 : Int := if consumed then v else 0
        let (v1, e1, c1) := strtol0 (e.drop 1)
        if hd0 e1 = ':' then
          let t1 : Int := if c1 then v1 else 0
          let (v2, _, c2) := strtol0 (e1.drop 1)
          some (t0, t1, if c2 then v2 else 0)
        else none
      else
        some (0, 0, if consumed then v else 0)
    match triple with
    | none => none
    | some (t0, t1, t2) =>
      let seconds : Int := t2 + 60 * (t1 + 60 * t0)
      if 0 ≤ seconds then
        let minutes := (seconds + 59) / 60
        if minutes < 4294967295 then some minutes.toNat else none
      else none

/-- job_submit_sge_parse_bool: TRUE, FALSE (case-insensitive), 1, 0. -/
def job_submit_sge_parse_bool (s : List Char) : Option Bool :=
  let l := s.map Char.toLower
  if l = "true".toList then some true
  else if l = "false".toList then some false
  else if l = ['1'] then some true
  else if l = ['0'] then some false
  else none

/-! ## Job descriptor

The fields of struct job_descriptor read or written by the plugin.
C char* fields are Option (List Char) (none = NULL); numeric fields keep
their C sentinel defaults (NO_VAL / NO_VAL16 / NO_VAL64 = unset).  The
environment is the appendable list of NAME=value assignments. -/

structure JobDescriptor where
  script : List Char := []
  num_tasks : Nat := NO_VAL
  cpus_per_task : Nat := NO_VAL16
  min_cpus : Nat := 1
  max_cpus : Nat := NO_VAL
  pn_min_cpus : Nat := NO_VAL16
  mail_type : Nat := 0
  mail_user : Option (List Char) := none
  name : Option (List Char) := none
  comment : Option (List Char) := none
  std_in : Option (List Char) := none
  std_out : Option (List Char) := none
  std_err : Option (List Char) := none
  partition : Option (List Char) := none
  pn_min_memory : Nat := NO_VAL64
  time_limit : Nat := NO_VAL
  time_min : Nat := NO_VAL
  shared : Nat := NO_VAL16
  account : Option (List Char) := none
  qos : Option (List Char) := none
  reservation : Option (List Char) := none
  group_id : Nat := 0
  environment : List String := []
  tres_per_node : Option (List Char) := none
  bitflags : Nat := 0
  sockets_per_node : Nat := NO_VAL16
  deriving Repr, DecidableEq

/-- Local state of job_submit_sge_parser carried across directive lines. -/
structure SgeScanState where
  should_join_stdout_stderr : Bool := true
  is_set_stderr : Bool
  deriving Repr, DecidableEq

/-- job_submit_is_nonempty_str: non-NULL and containing a non-space char. -/
def job_submit_is_nonempty_str (o : Option (List Char)) : Bool :=
  match o with
  | none => false
  | some l => l.any (fun c => !cIsSpace c)

/-- The guard the directive handlers use for char* fields that must be
non-NULL and non-empty (for example the -N and -q handlers). -/
def optSet (o : Option (List Char)) : Bool :=
  match o with
  | some (_ :: _) => true
  | _ => false

/-! ## Stdio path parsing (job_submit_sge_parse_file_path) -/

/-- SGE pseudo-variables permitted in stdio paths and their Slurm tokens. -/
def sge_path_pseudo_variables : List (List Char × List Char) :=
  [("$USER".toList, "%u".toList),
   ("$JOB_ID".toList, "%A".toList),
   ("$JOB_NAME".toList, "%x".toList),
   ("$HOSTNAME".toList, "%N".toList),
   ("$TASK_ID".toList, "%a".toList)]

/-- Split a list at the first occurrence of pat, returning the text before
it and the text after it (the strstr step of the substitution loop). -/
def occSplit (pat : List Char) : List Char → Option (List Char × List Char)
  | [] => none
  | c :: t =>
    if pat.isPrefixOf (c :: t) then some ([], (c :: t).drop pat.length)
    else
      match occSplit pat t with
      | some (pre, post) => some (c :: pre, post)
      | none => none

/-- Replace every occurrence of pat by rep, scanning left to right.  The
replacements used here never contain a dollar sign, so re-scanning from
the start of the buffer as the C does finds exactly these occurrences. -/
def substAll (fuel : Nat) (pat rep : List Char) (l : List Char) : List Char :=
  match fuel with
  | 0 => l
  | fuel + 1 =>
    match occSplit pat l with
    | none => l
    | some (pre, post) => pre ++ rep ++ substAll fuel pat rep post

/-- Apply the five pseudo-variable substitutions in table order. -/
def sge_path_subst (l : List Char) : List Char :=
  sge_path_pseudo_variables.foldl
    (fun acc pr => substAll (acc.length + 1) pr.1 pr.2 acc) l

/-- job_submit_sge_parse_file_path: scan comma-separated components,
rejecting host-qualified ones (a colon not at the start), strip a leading
colon, and apply pseudo-variable substitutions to the first acceptable
component.  Returns none when no path is extracted (the C leaves out_path
NULL and the handler does nothing). -/
def job_submit_sge_parse_file_path (fuel : Nat) (s : List Char) :
    Option (List Char) :=
  match fuel with
  | 0 => none
  | fuel + 1 =>
    let (hasColon, s1) :=
      match s with
      | ':' :: t => (true, t)
      | _ => (false, s)
    let comp := s1.takeWhile (fun c => c ≠ '\n' && c ≠ ',')
    if !hasColon && comp.contains ':' then
      -- host-specific redirection: skip to the delimiter and retry past a comma
      let rest := s1.dropWhile (fun c => c ≠ '\n' && c ≠ ',')
      match rest with
      | ',' :: t => job_submit_sge_parse_file_path fuel t
      | _ => none
    else
      some (sge_path_subst comp)

/-! ## Directive handlers (job_submit_sge_parser, one per flag) -/

def errLine (msg : String) (lineNo : Nat) : String :=
  msg ++ toString lineNo ++ " of job script"

/-- Skip the whitespace of the current line (while *s and *s is not a
newline and isspace(*s)). -/
def sgeSkipSpace (l : List Char) : List Char :=
  l.dropWhile (fun c => c ≠ '\n' && cIsSpace c)

/-- Truncate a uint32 assigned into a uint16 field. -/
def trunc16 (n : Nat) : Nat := n % 65536

/-- Set the descriptor fields and environment entries for an accepted
-pe request.  Note that the source appends num_tasks for all three
environment variables, SLURM_CPUS_PER_TASK included. -/
def sge_pe_apply (peName : List Char) (isRange : Bool) (lo hi : Nat)
    (lineNo : Nat) (d : JobDescriptor) : JobDescriptor × Option String :=
  if lo ≤ hi then
    if peName = "threads".toList then
      let cpt := trunc16 (if isRange then hi else lo)
      ({ d with num_tasks := 1, cpus_per_task := cpt,
                min_cpus := cpt, pn_min_cpus := trunc16 cpt,
                max_cpus := NO_VAL,
                environment := d.environment ++
                  ["SLURM_NTASKS=" ++ toString (1 : Nat),
                   "SLURM_NPROCS=" ++ toString (1 : Nat),
                   "SLURM_CPUS_PER_TASK=" ++ toString (1 : Nat)] }, none)
    else if peName = "mpi".toList || peName = "generic-mpi".toList then
      let nt := if isRange then hi else lo
      ({ d with num_tasks := nt, cpus_per_task := 1,
                min_cpus := nt, pn_min_cpus := trunc16 nt,
                max_cpus := NO_VAL,
                environment := d.environment ++
                  ["SLURM_NTASKS=" ++ toString nt,
                   "SLURM_NPROCS=" ++ toString nt,
                   "SLURM_CPUS_PER_TASK=" ++ toString nt] }, none)
    else (d, some (errLine "invalid pe name at line " lineNo))
  else
    (d, some ("slot minimum (" ++ toString lo ++ ") > maximum (" ++
              toString hi ++ ") at line " ++ toString lineNo ++
              " of job script"))

/-- Parse the optional second number of a -pe range (after the hyphen
that followed the first number). -/
def sge_pe_second (peName : List Char) (v1 : Nat) (e2 : List Char)
    (lineNo : Nat) (d : JobDescriptor) : JobDescriptor × Option String :=
  if (hd0 e2).isDigit then
    let v2 := (strtol10 e2).1
    let c2 := (strtol10 e2).2.2
    if v2 = 0 ∨ ¬c2 then (d, some (errLine "invalid slot count at line " lineNo))
    else if ¬(0 < v2 ∧ v2 ≤ (NO_VAL : Int)) then
      (d, some ("invalid slot count (" ++ toString v2 ++ ") at line " ++
                toString lineNo ++ " of job script"))
    else sge_pe_apply peName true v1 v2.toNat lineNo d
  else (d, some (errLine "invalid slot count at line " lineNo))

/-- Parse the number (or range) of a -pe request starting at s3; openLow
records a leading hyphen (implied lower bound of 1). -/
def sge_pe_number (peName : List Char) (openLow : Bool) (s3 : List Char)
    (lineNo : Nat) (d : JobDescriptor) : JobDescriptor × Option String :=
  if (hd0 s3) ≠ '\n' ∧ (hd0 s3).isDigit then
    let v1 := (strtol10 s3).1
    let e1 := (strtol10 s3).2.1
    let c1 := (strtol10 s3).2.2
    if v1 = 0 ∨ ¬c1 then (d, some (errLine "invalid slot count at line " lineNo))
    else if ¬(0 < v1 ∧ v1 ≤ (NO_VAL : Int)) then
      (d, some ("invalid slot count (" ++ toString v1 ++ ") at line " ++
                toString lineNo ++ " of job script"))
    else if openLow then
      sge_pe_apply peName true 1 v1.toNat lineNo d
    else
      match e1 with
      | '-' :: e2 => sge_pe_second peName v1.toNat e2 lineNo d
      | _ => sge_pe_apply peName false v1.toNat NO_VAL lineNo d
  else (d, none)

/-- The -pe handler.  has_cpu_counts is the flag computed once from the
submission environment before the scan; when set the option is ignored. -/
def sge_handle_pe (hasCpu : Bool) (lineNo : Nat) (s : List Char)
    (d : JobDescriptor) : JobDescriptor × Option String :=
  if hasCpu then (d, none)
  else
    let s1 := sgeSkipSpace s
    let peName := s1.takeWhile (fun c => !cIsSpace c)
    let s2 := sgeSkipSpace (s1.dropWhile (fun c => !cIsSpace c))
    match s2 with
    | '-' :: t => sge_pe_number peName true t lineNo d
    | _ => sge_pe_number peName false s2 lineNo d

/-- Accumulate the -m mail-mode characters until whitespace or the end of
the line (b/e/a/s set bits, n clears, comma skips, others error). -/
def sge_mail_modes (lineNo : Nat) : List Char → Nat → Nat ⊕ String
  | [], acc => .inl acc
  | c :: t, acc =>
    if cIsSpace c then .inl acc
    else if c = 'b' then sge_mail_modes lineNo t (acc ||| MAIL_JOB_BEGIN)
    else if c = 'e' then sge_mail_modes lineNo t (acc ||| MAIL_JOB_END)
    else if c = 'a' then sge_mail_modes lineNo t (acc ||| MAIL_JOB_FAIL)
    else if c = 's' then sge_mail_modes lineNo t (acc ||| MAIL_JOB_REQUEUE)
    else if c = 'n' then sge_mail_modes lineNo t 0
    else if c = ',' then sge_mail_modes lineNo t acc
    else .inr ("invalid mail option " ++ String.singleton c ++ " at line " ++
               toString lineNo ++ " of job script")

/-- The -m handler: applies only while the mail mode is still unset. -/
def sge_handle_m (lineNo : Nat) (s : List Char) (d : JobDescriptor) :
    JobDescriptor × Option String :=
  if d.mail_type = 0 then
    match sge_mail_modes lineNo (sgeSkipSpace s) 0 with
    | .inl modes => ({ d with mail_type := modes }, none)
    | .inr msg => (d, some msg)
  else (d, none)

/-- The -M handler: sets the mail recipient only when it is NULL. -/
def sge_handle_M (s : List Char) (d : JobDescriptor) : JobDescriptor :=
  if d.mail_user.isSome then d
  else
    let s1 := sgeSkipSpace s
    let addr := s1.takeWhile
      (fun c => c ≠ '\n' && c ≠ '\r' && c ≠ '\t' && c ≠ cVTab && c ≠ ' ')
    if addr ≠ [] then { d with mail_user := some addr } else d

/-- The -N handler: the name truncated at the first reserved character
goes into the job name if unset, else the comment if unset, else nowhere. -/
def sge_handle_N (s : List Char) (d : JobDescriptor) : JobDescriptor :=
  let s1 := sgeSkipSpace s
  let nm := s1.takeWhile (fun c =>
    c ≠ '\n' && c ≠ '\t' && c ≠ '\r' && c ≠ '/' && c ≠ ':' && c ≠ '@' &&
    c ≠ cBackslash && c ≠ '*' && c ≠ '?')
  if nm ≠ [] then
    if !optSet d.name then { d with name := some nm }
    else if !optSet d.comment then { d with comment := some nm }
    else d
  else d

/-- The -o, -e and -i handler.  When a path was extracted it overwrites
the corresponding stdio field unconditionally; -e records that stderr was
set explicitly. -/
def sge_handle_stdio (variant : Char) (s : List Char) (d : JobDescriptor)
    (st : SgeScanState) : JobDescriptor × SgeScanState :=
  let s1 := sgeSkipSpace s
  match job_submit_sge_parse_file_path (s1.length + 1) s1 with
  | some path =>
    if variant = 'o' then ({ d with std_out := some path }, st)
    else if variant = 'e' then
      ({ d with std_err := some path }, { st with is_set_stderr := true })
    else ({ d with std_in := some path }, st)
  | none => (d, st)

/-- The -j handler: accepts y, yes, n, no followed by whitespace. -/
def sge_handle_j (lineNo : Nat) (s : List Char) (st : SgeScanState) :
    SgeScanState × Option String :=
  let s1 := sgeSkipSpace s
  if hd0 s1 = 'y' then
    if cIsSpace (cAt s1 1) ∨ (cAt s1 1 = 'e' ∧ cAt s1 2 = 's' ∧ cIsSpace (cAt s1 3)) then
      ({ st with should_join_stdout_stderr := true }, none)
    else (st, some (errLine "invalid -j argument at line " lineNo))
  else if hd0 s1 = 'n' then
    if cIsSpace (cAt s1 1) ∨ (cAt s1 1 = 'o' ∧ cIsSpace (cAt s1 2)) then
      ({ st with should_join_stdout_stderr := false }, none)
    else (st, some (errLine "invalid -j argument at line " lineNo))
  else (st, some (errLine "invalid -j argument at line " lineNo))

/-- Collect the queue names of a -q argument, discarding @host
qualifiers, joined with commas (xstrcatchar / xstrncat of the source). -/
def sge_q_names (fuel : Nat) (s : List Char) (acc : Option (List Char)) :
    Option (List Char) :=
  match fuel with
  | 0 => acc
  | fuel + 1 =>
    if s = [] ∨ hd0 s = '\n' then acc
    else
      let qname := s.takeWhile (fun c =>
        c ≠ '\n' && c ≠ '\t' && c ≠ '\r' && c ≠ '@' && c ≠ ',' && c ≠ ' ')
      let acc' :=
        if qname ≠ [] then
          match acc with
          | none => some qname
          | some a => some (a ++ [','] ++ qname)
        else acc
      let s2 := s.drop qname.length
      let s3 :=
        match s2 with
        | '@' :: t => t.dropWhile (fun c => !cIsSpace c && c ≠ ',')
        | _ => s2
      let s4 := s3.dropWhile (fun c => c = '\t' || c = '\r' || c = ',' || c = ' ')
      sge_q_names fuel s4 acc'

/-- The -q handler: sets the partition list only when NULL or empty. -/
def sge_handle_q (s : List Char) (d : JobDescriptor) : JobDescriptor :=
  if !optSet d.partition then
    let s1 := sgeSkipSpace s
    match sge_q_names (s1.length + 1) s1 none with
    | some pl => { d with partition := some pl }
    | none => d
  else d

/-! ## The -l resource clause loop -/

/-- Case-insensitive comparison of a resource-name span against a known
name: xstrncasecmp(span, name, span-length) = 0, i.e. the lowered span is
a prefix of the lowered name. -/
def resNameMatches (span : List Char) (cand : String) : Bool :=
  (span.map Char.toLower).isPrefixOf cand.toList

/-- Scan a clause value up to the delimiter, tracking the previous
character so a backslash-escaped delimiter is skipped. -/
def sge_scan_value (delim pc : Char) : List Char → List Char × List Char
  | [] => ([], [])
  | c :: t =>
    if c = '\n' then ([], c :: t)
    else if c = delim ∧ pc ≠ cBackslash then ([], c :: t)
    else
      let (a, b) := sge_scan_value delim c t
      (c :: a, b)

/-- React to one name=value resource clause (names shorter than two
characters are skipped; unrecognized names are ignored). -/
def sge_react_clause (lineNo : Nat) (nameSpan valSpan : List Char)
    (d : JobDescriptor) : JobDescriptor × Option String :=
  if nameSpan.length ≤ 1 then (d, none)
  else if resNameMatches nameSpan "m_mem_free" || resNameMatches nameSpan "mfree" ||
          resNameMatches nameSpan "mem_free" || resNameMatches nameSpan "mf" then
    match job_submit_sge_parse_memory valSpan with
    | some m =>
      if d.pn_min_memory = NO_VAL64 then
        ({ d with pn_min_memory := Nat.lor m MEM_PER_CPU }, none)
      else (d, none)
    | none =>
      (d, some (errLine "invalid memory specification for m_mem_free resource at line " lineNo))
  else if resNameMatches nameSpan "h_rt" then
    match job_submit_sge_parse_time valSpan with
    | some limit =>
      if d.time_limit = NO_VAL then ({ d with time_limit := limit }, none)
      else (d, none)
    | none =>
      (d, some (errLine "invalid time specification for h_rt resource at line " lineNo))
  else if resNameMatches nameSpan "exclusive" || resNameMatches nameSpan "excl" then
    match job_submit_sge_parse_bool valSpan with
    | some flag =>
      if d.shared = NO_VAL16 then
        ({ d with shared := if flag then 0 else 1 }, none)
      else (d, none)
    | none =>
      (d, some (errLine "invalid specification for exclusive resource at line " lineNo))
  else (d, none)

/-- The comma-separated clause loop of the -l handler. -/
def sge_l_clauses (fuel : Nat) (lineNo : Nat) (s : List Char)
    (d : JobDescriptor) : JobDescriptor × Option String :=
  match fuel with
  | 0 => (d, none)
  | fuel + 1 =>
    if s = [] ∨ hd0 s = '\n' then (d, none)
    else
      let nameSpan := s.takeWhile (fun c => c ≠ '\n' && c ≠ '=')
      let re := s.drop nameSpan.length
      match re with
      | '=' :: vsRaw =>
        let quoted := hd0 vsRaw = cQuote || hd0 vsRaw = cApos
        let delim := if quoted then hd0 vsRaw else ','
        let vs := if quoted then vsRaw.drop 1 else vsRaw
        let valSpan := (sge_scan_value delim cNul vs).1
        let rest := (sge_scan_value delim cNul vs).2
        if quoted ∧ hd0 rest ≠ delim then
          (d, some ("unterminated quoted string at line " ++ toString lineNo ++
                    " of job script " ++ String.singleton delim))
        else
          let s' :=
            match rest with
            | c :: t => if c ≠ '\n' then t else rest
            | [] => []
          let rd := sge_react_clause lineNo nameSpan valSpan d
          match rd.2 with
          | some msg => (rd.1, some msg)
          | none => sge_l_clauses fuel lineNo s' rd.1
      | ',' :: t =>
        let rd := sge_react_clause lineNo nameSpan [] d
        match rd.2 with
        | some msg => (rd.1, some msg)
        | none => sge_l_clauses fuel lineNo t rd.1
      | _ =>
        let rd := sge_react_clause lineNo nameSpan [] d
        match rd.2 with
        | some msg => (rd.1, some msg)
        | none => sge_l_clauses fuel lineNo re rd.1

/-- The -l handler. -/
def sge_handle_l (lineNo : Nat) (s : List Char) (d : JobDescriptor) :
    JobDescriptor × Option String :=
  let s1 := sgeSkipSpace s
  sge_l_clauses (s1.length + 1) lineNo s1 d

/-! ## Directive dispatch and line scan -/

/-- Dispatch one directive body (the text after the hyphen) to its
handler, mirroring the else-if chain of the source. -/
def sge_handle_directive (hasCpu : Bool) (lineNo : Nat) (s : List Char)
    (d : JobDescriptor) (st : SgeScanState) :
    JobDescriptor × SgeScanState × Option String :=
  if hd0 s = 'p' ∧ cAt s 1 = 'e' ∧ cIsSpace (cAt s 2) then
    let r := sge_handle_pe hasCpu lineNo (s.drop 2) d
    (r.1, st, r.2)
  else if hd0 s = 'm' ∧ cIsSpace (cAt s 1) then
    let r := sge_handle_m lineNo (s.drop 1) d
    (r.1, st, r.2)
  else if hd0 s = 'M' ∧ cIsSpace (cAt s 1) then
    (sge_handle_M (s.drop 1) d, st, none)
  else if hd0 s = 'N' ∧ cIsSpace (cAt s 1) then
    (sge_handle_N (s.drop 1) d, st, none)
  else if (hd0 s = 'o' ∨ hd0 s = 'e' ∨ hd0 s = 'i') ∧ cIsSpace (cAt s 1) then
    let r := sge_handle_stdio (hd0 s) (s.drop 1) d st
    (r.1, r.2, none)
  else if hd0 s = 'j' ∧ cIsSpace (cAt s 1) then
    let r := sge_handle_j lineNo (s.drop 1) st
    (d, r.1, r.2)
  else if hd0 s = 'q' ∧ cIsSpace (cAt s 1) then
    (sge_handle_q (s.drop 1) d, st, none)
  else if hd0 s = 'l' ∧ cIsSpace (cAt s 1) then
    let r := sge_handle_l lineNo (s.drop 1) d
    (r.1, st, r.2)
  else (d, st, none)

/-- Does the submission environment already carry cpu/task counts?
(The scan over environment entries before the directive loop.) -/
def sge_has_cpu_counts (env : List String) : Bool :=
  env.any (fun e =>
    ("SLURM_NTASKS=".toList).isPrefixOf e.toList ||
    ("SLURM_CPUS_PER_TASK=".toList).isPrefixOf e.toList)

/-- Interpret one leading-comment line: a #$ line whose option text
starts with a hyphen is dispatched, anything else is left alone. -/
def sge_scan_step (hasCpu : Bool) (lineNo : Nat) (rest : List Char)
    (d : JobDescriptor) (st : SgeScanState) :
    JobDescriptor × SgeScanState × Option String :=
  if cAt rest 1 = '$' then
    match sgeSkipSpace (rest.drop 2) with
    | '-' :: s2 => sge_handle_directive hasCpu lineNo s2 d st
    | _ => (d, st, none)
  else (d, st, none)

/-- The line loop: while the remaining script starts with a hash, find
the line, interpret a #$ directive on it, and advance past the newline.
A line starting with a hash is never empty, so the C else-break branch is
unreachable and each iteration consumes at least one character; the fuel
is initialized above the script length and never runs out. -/
def sge_scan (fuel : Nat) (hasCpu : Bool) (lineNo : Nat) (rest : List Char)
    (d : JobDescriptor) (st : SgeScanState) :
    JobDescriptor × SgeScanState × Option String :=
  match fuel with
  | 0 => (d, st, none)
  | fuel + 1 =>
    if hd0 rest = '#' then
      let lineLen := (rest.takeWhile (fun c => c ≠ '\n')).length
      let step := sge_scan_step hasCpu lineNo rest d st
      match step.2.2 with
      | some msg => (step.1, step.2.1, some msg)
      | none =>
        let next0 := rest.drop lineLen
        let next := if hd0 next0 = '\n' then next0.drop 1 else next0
        sge_scan fuel hasCpu (lineNo + 1) next step.1 step.2.1
    else (d, st, none)

/-- The post-scan stderr rule: with -j n seen and no explicit stderr,
derive stderr from stdout (replacing a trailing ".out" by ".err" when the
name is longer than the suffix, else appending ".err"), or fall back to
the scheduler-default template. -/
def sge_post_scan (d : JobDescriptor) (st : SgeScanState) : JobDescriptor :=
  if !st.should_join_stdout_stderr && !st.is_set_stderr then
    match d.std_out with
    | some p =>
      if 4 < p.length ∧ p.drop (p.length - 4) = ".out".toList then
        { d with std_err := some (p.take (p.length - 4) ++ ".err".toList) }
      else
        { d with std_err := some (p ++ ".err".toList) }
    | none => { d with std_err := some "slurm-%j.err".toList }
  else d

/-- The whole SGE directive scanner and interpreter of the job_submit
plugin (job_submit_sge_parser of part_003).  Returns the transformed
descriptor together with the error message when the scan was aborted; on
an error return the post-scan stderr rule is not applied. -/
def sge_transform (d : JobDescriptor) : JobDescriptor × Option String :=
  let hasCpu := sge_has_cpu_counts d.environment
  let st0 : SgeScanState := { is_set_stderr := d.std_err.isSome }
  let r := sge_scan (d.script.length + 1) hasCpu 1 d.script d st0
  match r.2.2 with
  | some msg => (r.1, some msg)
  | none => (sge_post_scan r.1 r.2.1, none)

/-! ## Policy pass helpers (part_003) -/

/-- job_submit_str_in_list with fold_case: is the needle one of the
comma-separated elements, compared case-insensitively?  The C scans
occurrences bounded by commas or the string ends; for a needle without a
comma (both call sites) that is exactly element membership. -/
def job_submit_str_in_list (hay needle : List Char) : Bool :=
  (hay.splitOn ',').any (fun el => el.map Char.toLower = needle.map Char.toLower)

/-- job_submit_replace_str_in_list with fold_case: replace the first
element matching the needle case-insensitively; none when no element
matches (the C returns NULL). -/
def replaceFirstEl (needle repl : List Char) :
    List (List Char) → Option (List (List Char))
  | [] => none
  | e :: t =>
    if e.map Char.toLower = needle.map Char.toLower then some (repl :: t)
    else (replaceFirstEl needle repl t).map (e :: ·)

def job_submit_replace_str_in_list (hay needle repl : List Char) :
    Option (List Char) :=
  (replaceFirstEl needle repl (hay.splitOn ',')).map (List.intercalate [','])

/-- The unit-suffix scan of job_submit_has_owned_resource_partition:
after the digits, count size-unit characters and byte characters in any
order; accept at the element end exactly when there is one of each. -/
def ownedUnitScan : List Char → Nat → Nat → Bool
  | [], u, b => u = 1 ∧ b = 1
  | c :: t, u, b =>
    if c = 'P' ∨ c = 'p' ∨ c = 'T' ∨ c = 't' ∨ c = 'G' ∨ c = 'g' ∨
       c = 'M' ∨ c = 'm' then ownedUnitScan t (u + 1) b
    else if c = 'b' ∨ c = 'B' then ownedUnitScan t u (b + 1)
    else if c = ',' then u = 1 ∧ b = 1
    else false

/-- Does one partition-list element match the hardware-resource pattern
(compute|gpu|nvme)-(digits)(one unit char + one byte char)? -/
def ownedElementMatches (el : List Char) : Bool :=
  let pfx :=
    if ("compute".toList).isPrefixOf (el.map Char.toLower) then 7
    else if ("gpu".toList).isPrefixOf (el.map Char.toLower) then 3
    else if ("nvme".toList).isPrefixOf (el.map Char.toLower) then 4
    else 0
  if pfx = 0 then false
  else
    match el.drop pfx with
    | '-' :: p1 => ownedUnitScan (p1.dropWhile Char.isDigit) 0 0
    | _ => false

def job_submit_has_owned_resource_partition (o : Option (List Char)) : Bool :=
  match o with
  | none => false
  | some l => (l.splitOn ',').any ownedElementMatches

/-- The workgroup-only test of the priority-access step.  The loop
terminates early, keeping workgroup_only true, when it reaches an empty
element.  An element counts as a workgroup when it is a prefix of the
placeholder token (strncmp over the element length) or when the group
lookup succeeds; the source passes the whole remaining list (not the
isolated element) to getgrnam, so the oracle isg receives exactly that
remaining text. -/
def workgroupOnly (isg : List Char → Bool) : Nat → List Char → Bool
  | 0, _ => true
  | _, [] => true
  | fuel + 1, l =>
    let el := l.takeWhile (· ≠ ',')
    if el.length = 0 then true
    else if el.isPrefixOf udhpc_workgroup_token ∨ isg l then
      workgroupOnly isg fuel ((l.drop el.length).dropWhile (· = ','))
    else false

/-- Case-insensitive strstr: the suffix of the haystack starting at the
first occurrence of the needle. -/
def xcasestr (needle : List Char) : List Char → Option (List Char)
  | [] => if needle = [] then some [] else none
  | c :: t =>
    if (needle.map Char.toLower).isPrefixOf ((c :: t).map Char.toLower) then
      some (c :: t)
    else xcasestr needle t

/-- The GPU GRES token scan: find each occurrence of gpu, skip an
optional :p100 type and a further colon, then read the count (absent
count is one per token). -/
def gpu_gres_scan (fuel : Nat) (l : List Char) (acc : Int) :
    Except String Int :=
  match fuel with
  | 0 => .ok acc
  | fuel + 1 =>
    match xcasestr "gpu".toList l with
    | none => .ok acc
    | some rest =>
      let g := rest.drop 3
      match g with
      | ':' :: _ =>
        let g1 :=
          if (":p100".toList).isPrefixOf (g.map Char.toLower) then g.drop 5 else g
        let g2 :=
          match g1 with
          | ':' :: t => t
          | _ => g1
        match g2 with
        | ',' :: t => gpu_gres_scan fuel t (acc + 1)
        | [] => .ok (acc + 1)
        | c :: _ =>
          if c.isDigit then
            let v := (strtol10 g2).1
            let e := (strtol10 g2).2.1
            if (strtol10 g2).2.2 then gpu_gres_scan fuel e (acc + v)
            else .error ("Invalid GPU request option: " ++ String.mk g2)
          else gpu_gres_scan fuel g2 acc
      | _ :: t => gpu_gres_scan fuel t (acc + 1)
      | [] => .ok (acc + 1)

/-! ## The admission callback (job_submit of part_003)

The group database is abstracted: grdb maps a gid to the group name that
getgrgid resolves (none covers both lookup failure and a name too long
for the plugin cache), and isg tells whether getgrnam resolves a name. -/

/-- The directive-scan stage: run the SGE transform when the script is
nonempty and starts with a shebang. -/
def js_scan_stage (d0 : JobDescriptor) : JobDescriptor × Option String :=
  if job_submit_is_nonempty_str (some d0.script) &&
     decide (d0.script.take 2 = "#!".toList) then
    sge_transform d0
  else (d0, none)

/-- The reserved-partition and MCS-exclusivity checks (no mutation). -/
def js_checks (d : JobDescriptor) : Option String :=
  if job_submit_is_nonempty_str d.partition &&
     job_submit_str_in_list (d.partition.getD []) "reserved".toList &&
     !job_submit_is_nonempty_str d.reservation then
    some "Jobs in the `reserved` partition require a reservation"
  else if d.shared ≠ NO_VAL16 ∧ d.shared = JOB_SHARED_MCS then
    some "MCS is not enabled on this cluster, so you cannot use --exclusive=mcs"
  else none

/-- The memory-per-cpu default for an unset memory limit. -/
def js_mem_default (d : JobDescriptor) : JobDescriptor :=
  if d.pn_min_memory = NO_VAL64 then
    { d with pn_min_memory := Nat.lor udhpc_min_mem_mb MEM_PER_CPU }
  else d

/-- Stages up to and including the memory default: directive scan (for a
script starting with a shebang), the reserved-partition check, the MCS
exclusivity check, and the memory-per-cpu default.  Returns the state of
the descriptor plus the error message when one of these stages rejects. -/
def job_submit_pre (d0 : JobDescriptor) : JobDescriptor × Option String :=
  let s := js_scan_stage d0
  match s.2 with
  | some msg => (s.1, some msg)
  | none =>
    match js_checks s.1 with
    | some msg => (s.1, some msg)
    | none => (js_mem_default s.1, none)

/-- The account-resolution stage: when the account is unset, a gid at or
above the configured base is resolved to its group name (failing the
submission when unresolvable) and a lower gid rejects non-privileged
submitters. -/
def job_submit_account (d : JobDescriptor) (submit_uid : Nat)
    (grdb : Nat → Option (List Char)) : Except String JobDescriptor :=
  if !job_submit_is_nonempty_str d.account then
    if udhpc_base_gid ≤ d.group_id then
      match grdb d.group_id with
      | some g => .ok { d with account := some g }
      | none =>
        .error ("Unable to resolve job submission gid " ++ toString d.group_id)
    else if submit_uid ≠ 0 then
      .error "Please choose a workgroup before submitting a job"
    else .ok d
  else .ok d

/-- Owned-resource partition step: default the QOS to the account when a
hardware-resource partition was chosen, the QOS is unset and the account
is set. -/
def js_owned_qos (d : JobDescriptor) : JobDescriptor :=
  if job_submit_has_owned_resource_partition d.partition &&
     !job_submit_is_nonempty_str d.qos &&
     job_submit_is_nonempty_str d.account then
    { d with qos := some (d.account.getD []) }
  else d

/-- Priority-access step: when every partition is a workgroup (or the
placeholder token) and the QOS is unset, set the priority-access QOS. -/
def js_priority_qos (isg : List Char → Bool) (d : JobDescriptor) :
    JobDescriptor :=
  if job_submit_is_nonempty_str d.partition &&
     !job_submit_is_nonempty_str d.qos then
    if workgroupOnly isg ((d.partition.getD []).length + 1) (d.partition.getD []) then
      { d with qos := some "priority-access".toList }
    else d
  else d

/-- Workgroup placeholder substitution: replace the placeholder in the
partition list by the resolved group name, rejecting the job when the gid
or the replacement cannot be resolved. -/
def js_wg_subst (grdb : Nat → Option (List Char)) (d : JobDescriptor) :
    Except String JobDescriptor :=
  if job_submit_is_nonempty_str d.partition &&
     job_submit_str_in_list (d.partition.getD []) udhpc_workgroup_token then
    match grdb d.group_id with
    | some g =>
      match job_submit_replace_str_in_list (d.partition.getD [])
              udhpc_workgroup_token g with
      | some np => .ok { d with partition := some np }
      | none =>
        .error ("Unable to replace _workgroup_ with " ++ String.mk g ++
                " in partition list")
    | none =>
      .error ("Unable to map submitting workgroup gid " ++
              toString d.group_id ++ " to its name")
  else .ok d

/-- GPU GRES step: a positive GPU count sets the enforce-bind flag and
the sockets-per-node hint. -/
def js_gpu (d : JobDescriptor) : Except String JobDescriptor :=
  if job_submit_is_nonempty_str d.tres_per_node then
    match gpu_gres_scan ((d.tres_per_node.getD []).length + 1)
            (d.tres_per_node.getD []) 0 with
    | .error msg => .error msg
    | .ok cnt =>
      if 0 < cnt then
        .ok { d with bitflags := Nat.lor d.bitflags GRES_ENFORCE_BIND,
                     sockets_per_node := trunc16 cnt.toNat }
      else .ok d
  else .ok d

/-- time_min default: an unset minimum time becomes the time limit. -/
def js_time_min (d : JobDescriptor) : JobDescriptor :=
  if d.time_min = NO_VAL then { d with time_min := d.time_limit } else d

/-- The stages after account resolution: owned-resource QOS default,
priority-access QOS default, workgroup placeholder substitution, GPU GRES
adjustments and the time_min default. -/
def job_submit_post (d : JobDescriptor) (grdb : Nat → Option (List Char))
    (isg : List Char → Bool) : Except String JobDescriptor :=
  match js_wg_subst grdb (js_priority_qos isg (js_owned_qos d)) with
  | .error msg => .error msg
  | .ok d1 =>
    match js_gpu d1 with
    | .error msg => .error msg
    | .ok d2 => .ok (js_time_min d2)

/-- The whole job_submit admission callback of part_003. -/
def job_submit (d0 : JobDescriptor) (submit_uid : Nat)
    (grdb : Nat → Option (List Char)) (isg : List Char → Bool) :
    Except String JobDescriptor :=
  let pre := job_submit_pre d0
  match pre.2 with
  | some msg => .error msg
  | none =>
    match job_submit_account pre.1 submit_uid grdb with
    | .error msg => .error msg
    | .ok d2 => job_submit_post d2 grdb isg

/-! ## SPANK plugin: NSLOTS decoder (gridengine_compat.c, task init) -/

/-- The SLURM_JOB_CPUS_PER_NODE scan: sum count times repeat over the
comma-separated terms count or count(xrepeat).  The accumulated slot
count is an unsigned 32-bit value; the Bool is false when the scan was
aborted by a parse error.  Each iteration consumes at least one
character, so the fuel chosen by the caller never runs out. -/
def nslots_scan (fuel : Nat) (l : List Char) (acc : Nat) : Nat × Bool :=
  match fuel with
  | 0 => (acc, true)
  | fuel + 1 =>
    match l with
    | [] => (acc, true)
    | _ =>
      let n := (strtol10 l).1
      let e := (strtol10 l).2.1
      let consumed := (strtol10 l).2.2
      if 0 < n ∧ consumed then
        let withTerm : Option (Nat × List Char) :=
          match e with
          | '(' :: 'x' :: t =>
            let r := (strtol10 t).1
            let e2 := (strtol10 t).2.1
            let c2 := (strtol10 t).2.2
            if 0 < r ∧ c2 then
              some ((n * r).toNat,
                    match e2 with
                    | ')' :: t2 => t2
                    | _ => e2)
            else none
          | _ => some (n.toNat, e)
        match withTerm with
        | none => (acc, false)
        | some (add, p) =>
          let acc' := (acc + add) % 4294967296
          match p with
          | [] => (acc', true)
          | ',' :: t => nslots_scan fuel t acc'
          | _ => (acc', false)
      else (acc, false)

/-- The NSLOTS value exported to the task environment: the accumulated
sum when positive, else the fallback 1. -/
def nslots_env_value (l : List Char) : String :=
  let n := (nslots_scan (l.length + 1) l 0).1
  if 0 < n then toString n else "1"

/-! ## SPANK plugin: scratch directory derivation (_get_tmpdir)

The filesystem is a map from paths (component lists) to what stat finds
there; mkdir with mode 0700 inserts a directory.  Only the paths the
function touches matter: the base, the job directory and the step
directory. -/

inductive FsKind where
  | dir
  | nondir
  deriving Repr, DecidableEq

def Fs : Type := List String → Option FsKind

def Fs.set (fs : Fs) (p : List String) (k : FsKind) : Fs :=
  fun q => if q = p then some k else fs q

/-- The scratch path: base/jobId for the batch step, base/jobId/stepId
otherwise. -/
def tmpdir_path (base : String) (jobId stepId : Nat) : String :=
  if stepId = SLURM_BATCH_SCRIPT then base ++ "/" ++ toString jobId
  else base ++ "/" ++ toString jobId ++ "/" ++ toString stepId

/-- Ensure one directory level exists: stat, mkdir when missing, and fail
when what exists is not a directory. -/
def ensureDir (fs : Fs) (p : List String) : Except Unit Fs :=
  match fs p with
  | none => .ok (fs.set p .dir)
  | some .dir => .ok fs
  | some .nondir => .error ()

/-- _get_tmpdir: require the base to be a directory, create the job
directory (and for a non-batch step the step directory) when missing,
and return the derived path with the updated filesystem. -/
def get_tmpdir (fs : Fs) (base : String) (jobId stepId : Nat) :
    Except Unit (String × Fs) :=
  match fs [base] with
  | some .dir =>
    match ensureDir fs [base, toString jobId] with
    | .error _ => .error ()
    | .ok fs1 =>
      if stepId = SLURM_BATCH_SCRIPT then
        .ok (tmpdir_path base jobId stepId, fs1)
      else
        match ensureDir fs1 [base, toString jobId, toString stepId] with
        | .error _ => .error ()
        | .ok fs2 => .ok (tmpdir_path base jobId stepId, fs2)
  | _ => .error ()

/-! ## Concrete inputs for the claim theorems and witnesses -/

/-- Script requesting an mpi parallel environment with a 2-8 slot range. -/
def descMpi : JobDescriptor := { script := "#!/bin/bash\n#$ -pe mpi 2-8\n".toList }

/-- Script requesting a threads parallel environment with 4 slots. -/
def descThreads : JobDescriptor := { script := "#!/bin/bash\n#$ -pe threads 4\n".toList }

/-- Script with a binary-suffix memory request, over a memory limit v. -/
def descMem (v : Nat) : JobDescriptor :=
  { script := "#!/bin/bash\n#$ -l m_mem_free=4G\n".toList, pn_min_memory := v }

/-- Script with a decimal-suffix memory request, memory limit unset. -/
def descMemDec : JobDescriptor :=
  { script := "#!/bin/bash\n#$ -l m_mem_free=4g\n".toList }

/-- Script with an H:M:S wall-time request, over a time limit v. -/
def descTime (v : Nat) : JobDescriptor :=
  { script := "#!/bin/bash\n#$ -l h_rt=01:30:00\n".toList, time_limit := v }

/-- Script with a bare-seconds wall-time request, time limit unset. -/
def descTimeSec : JobDescriptor :=
  { script := "#!/bin/bash\n#$ -l h_rt=90\n".toList }

/-- Script declining joined stdout/stderr, over a stdout path o. -/
def descJoinNo (o : Option (List Char)) : JobDescriptor :=
  { script := "#!/bin/bash\n#$ -j n\n".toList, std_out := o }

/-- A descriptor whose stdout is already set when a -o directive runs. -/
def descStdioOverwrite : JobDescriptor :=
  { script := "#!/bin/bash\n#$ -o new.txt\n".toList, std_out := some "pre.out".toList }

/-- A fully pre-set descriptor for the first-writer-wins witness. -/
def c1wDesc : JobDescriptor where
  account := some "acct".toList
  group_id := 1000
  mail_type := 1
  mail_user := some "a@b".toList
  name := some "n".toList
  comment := some "c".toList
  partition := some "p".toList
  pn_min_memory := 2048
  time_limit := 60
  shared := 0
  qos := some "q".toList
  environment := ["SLURM_NTASKS=4"]

def c1wGrdb : Nat → Option (List Char) := fun _ => none

def c1wIsg : List Char → Bool := fun _ => false

/-- The admitted descriptor for the first-writer-wins witness. -/
def c1wExpected : JobDescriptor := { c1wDesc with time_min := 60 }

/-- Account-step witness descriptors: a gid below the workgroup base and
one at or above it, with the matching group databases. -/
def c8dA : JobDescriptor := { group_id := 100 }

def c8dB : JobDescriptor := { group_id := 600 }

def c8dA1 : JobDescriptor :=
  { c8dA with pn_min_memory := Nat.lor udhpc_min_mem_mb MEM_PER_CPU }

def c8dB1 : JobDescriptor :=
  { c8dB with pn_min_memory := Nat.lor udhpc_min_mem_mb MEM_PER_CPU }

def c8grdbN : Nat → Option (List Char) := fun _ => none

def c8grdbS : Nat → Option (List Char) :=
  fun g => if g = 600 then some "grp600".toList else none

/-- The descriptor admitted for the resolvable-gid witness. -/
def c8dB2 : JobDescriptor := { c8dB1 with account := some "grp600".toList }

/-- A filesystem holding only the scratch base directory. -/
def c9fs0 : Fs := fun p => if p = ["/tmp"] then some .dir else none

/-- The filesystem after the job scratch directory was created. -/
def c9fs1 : Fs := Fs.set c9fs0 ["/tmp", "12345"] .dir

/-! ## Preservation lemmas

Pres a b records that every field the first-writer-wins discipline
protects is preserved from a to b: fields the transform never assigns are
plain equalities; guarded fields are preserved whenever they were already
set (in the sense of the guard the corresponding handler uses).  CpuPres
records preservation of the cpu/task-count fields and the environment,
which hold when the submission environment already carried count markers.
PolPres is the analogous frame for the policy stages after account
resolution. -/

structure Pres (a b : JobDescriptor) : Prop where
  script : b.script = a.script
  account : b.account = a.account
  qos : b.qos = a.qos
  group_id : b.group_id = a.group_id
  reservation : b.reservation = a.reservation
  tres : b.tres_per_node = a.tres_per_node
  time_min : b.time_min = a.time_min
  bitflags : b.bitflags = a.bitflags
  sockets : b.sockets_per_node = a.sockets_per_node
  mail_type : a.mail_type ≠ 0 → b.mail_type = a.mail_type
  mail_user : a.mail_user.isSome → b.mail_user = a.mail_user
  name : optSet a.name = true → b.name = a.name
  comment : optSet a.comment = true → b.comment = a.comment
  partition : optSet a.partition = true → b.partition = a.partition
  mem : a.pn_min_memory ≠ NO_VAL64 → b.pn_min_memory = a.pn_min_memory
  time_limit : a.time_limit ≠ NO_VAL → b.time_limit = a.time_limit
  shared : a.shared ≠ NO_VAL16 → b.shared = a.shared

theorem pres_refl (a : JobDescriptor) : Pres a a := by
  constructor <;> intros <;> rfl

theorem pres_pe_apply (pn : List Char) (ir : Bool) (lo hi ln : Nat) (d : JobDescriptor) :
    Pres d (sge_pe_apply pn ir lo hi ln d).1 := by
  unfold sge_pe_apply
  split
  · split
    · constructor <;> intros <;> rfl
    · split
      · constructor <;> intros <;> rfl
      · exact pres_refl d
  · exact pres_refl d

theorem pres_pe_second (pn : List Char) (v1 : Nat) (e2 : List Char) (ln : Nat)
    (d : JobDescriptor) : Pres d (sge_pe_second pn v1 e2 ln d).1 := by
  unfold sge_pe_second
  split
  · dsimp only
    split
    · exact pres_refl d
    · split
      · exact pres_refl d
      · exact pres_pe_apply ..
  · exact pres_refl d

theorem pres_pe_number (pn : List Char) (ol : Bool) (s3 : List Char) (ln : Nat)
    (d : JobDescriptor) : Pres d (sge_pe_number pn ol s3 ln d).1 := by
  unfold sge_pe_number
  split
  · dsimp only
    split
    · exact pres_refl d
    · split
      · exact pres_refl d
      · split
        · exact pres_pe_apply ..
        · split
          · exact pres_pe_second ..
          · exact pres_pe_apply ..
  · exact pres_refl d

theorem pres_pe (hasCpu : Bool) (ln : Nat) (s : List Char) (d : JobDescriptor) :
    Pres d (sge_handle_pe hasCpu ln s d).1 := by
  unfold sge_handle_pe
  split
  · exact pres_refl d
  · dsimp only
    split
    · exact pres_pe_number ..
    · exact pres_pe_number ..

theorem pres_comp {a b c : JobDescriptor} (h1 : Pres a b) (h2 : Pres b c) : Pres a c := by
  refine ⟨h2.script.trans h1.script, h2.account.trans h1.account, h2.qos.trans h1.qos,
    h2.group_id.trans h1.group_id, h2.reservation.trans h1.reservation,
    h2.tres.trans h1.tres, h2.time_min.trans h1.time_min, h2.bitflags.trans h1.bitflags,
    h2.sockets.trans h1.sockets, ?_, ?_, ?_, ?_, ?_, ?_, ?_, ?_⟩
  · intro h
    have hb := h1.mail_type h
    rw [h2.mail_type (by rw [hb]; exact h), hb]
  · intro h
    have hb := h1.mail_user h
    rw [h2.mail_user (by rw [hb]; exact h), hb]
  · intro h
    have hb := h1.name h
    rw [h2.name (by rw [hb]; exact h), hb]
  · intro h
    have hb := h1.comment h
    rw [h2.comment (by rw [hb]; exact h), hb]
  · intro h
    have hb := h1.partition h
    rw [h2.partition (by rw [hb]; exact h), hb]
  · intro h
    have hb := h1.mem h
    rw [h2.mem (by rw [hb]; exact h), hb]
  · intro h
    have hb := h1.time_limit h
    rw [h2.time_limit (by rw [hb]; exact h), hb]
  · intro h
    have hb := h1.shared h
    rw [h2.shared (by rw [hb]; exact h), hb]

theorem pres_m (ln : Nat) (s : List Char) (d : JobDescriptor) :
    Pres d (sge_handle_m ln s d).1 := by
  unfold sge_handle_m
  split
  · rename_i hz
    split
    · constructor <;> intros <;> first | rfl | omega
    · exact pres_refl d
  · exact pres_refl d

theorem pres_M (s : List Char) (d : JobDescriptor) :
    Pres d (sge_handle_M s d) := by
  unfold sge_handle_M
  split
  · exact pres_refl d
  · dsimp only
    split
    · rename_i hns
      constructor <;> intros <;> first | rfl | simp_all
    · exact pres_refl d

theorem pres_N (s : List Char) (d : JobDescriptor) :
    Pres d (sge_handle_N s d) := by
  unfold sge_handle_N
  dsimp only
  split
  · split
    · constructor <;> intros <;> first | rfl | simp_all
    · split
      · constructor <;> intros <;> first | rfl | simp_all
      · exact pres_refl d
  · exact pres_refl d

theorem pres_stdio (v : Char) (s : List Char) (d : JobDescriptor) (st : SgeScanState) :
    Pres d (sge_handle_stdio v s d st).1 := by
  unfold sge_handle_stdio
  dsimp only
  split
  · split
    · constructor <;> intros <;> rfl
    · split
      · constructor <;> intros <;> rfl
      · constructor <;> intros <;> rfl
  · exact pres_refl d

theorem pres_q (s : List Char) (d : JobDescriptor) :
    Pres d (sge_handle_q s d) := by
  unfold sge_handle_q
  split
  · rename_i hp
    dsimp only
    split
    · constructor <;> intros <;> first | rfl | simp_all
    · exact pres_refl d
  · exact pres_refl d

theorem pres_react (ln : Nat) (ns vs : List Char) (d : JobDescriptor) :
    Pres d (sge_react_clause ln ns vs d).1 := by
  unfold sge_react_clause
  split
  · exact pres_refl d
  · split
    · split
      · split
        · constructor <;> intros <;> simp_all
        · exact pres_refl d
      · exact pres_refl d
    · split
      · split
        · split
          · constructor <;> intros <;> simp_all
          · exact pres_refl d
        · exact pres_refl d
      · split
        · split
          · split
            · constructor <;> intros <;> simp_all
            · exact pres_refl d
          · exact pres_refl d
        · exact pres_refl d

theorem pres_l_clauses (fuel ln : Nat) (s : List Char) (d : JobDescriptor) :
    Pres d (sge_l_clauses fuel ln s d).1 := by
  induction fuel generalizing s d with
  | zero => exact pres_refl d
  | succ fuel ih =>
    unfold sge_l_clauses
    split
    · exact pres_refl d
    · repeat' first
        | exact pres_refl d
        | exact pres_react ..
        | exact pres_comp (pres_react ..) (ih ..)
        | (try dsimp only); split

theorem pres_l (ln : Nat) (s : List Char) (d : JobDescriptor) :
    Pres d (sge_handle_l ln s d).1 := by
  unfold sge_handle_l
  exact pres_l_clauses ..

theorem pres_directive (hasCpu : Bool) (ln : Nat) (s : List Char)
    (d : JobDescriptor) (st : SgeScanState) :
    Pres d (sge_handle_directive hasCpu ln s d st).1 := by
  unfold sge_handle_directive
  split
  · exact pres_pe ..
  · split
    · exact pres_m ..
    · split
      · exact pres_M ..
      · split
        · exact pres_N ..
        · split
          · exact pres_stdio ..
          · split
            · exact pres_refl d
            · split
              · exact pres_q ..
              · split
                · exact pres_l ..
                · exact pres_refl d

theorem pres_scan_step (hasCpu : Bool) (ln : Nat) (rest : List Char)
    (d : JobDescriptor) (st : SgeScanState) :
    Pres d (sge_scan_step hasCpu ln rest d st).1 := by
  unfold sge_scan_step
  split
  · split
    · exact pres_directive ..
    · exact pres_refl d
  · exact pres_refl d

theorem pres_scan (fuel : Nat) (hasCpu : Bool) (ln : Nat) (rest : List Char)
    (d : JobDescriptor) (st : SgeScanState) :
    Pres d (sge_scan fuel hasCpu ln rest d st).1 := by
  induction fuel generalizing ln rest d st with
  | zero => exact pres_refl d
  | succ fuel ih =>
    unfold sge_scan
    split
    · dsimp only
      split
      · exact pres_scan_step ..
      · exact pres_comp (pres_scan_step ..) (ih ..)
    · exact pres_refl d

structure CpuPres (a b : JobDescriptor) : Prop where
  num_tasks : b.num_tasks = a.num_tasks
  cpus_per_task : b.cpus_per_task = a.cpus_per_task
  min_cpus : b.min_cpus = a.min_cpus
  max_cpus : b.max_cpus = a.max_cpus
  pn_min_cpus : b.pn_min_cpus = a.pn_min_cpus
  environment : b.environment = a.environment

theorem cpuPres_refl (a : JobDescriptor) : CpuPres a a := by
  constructor <;> rfl

theorem cpuPres_comp {a b c : JobDescriptor} (h1 : CpuPres a b) (h2 : CpuPres b c) :
    CpuPres a c :=
  ⟨h2.num_tasks.trans h1.num_tasks, h2.cpus_per_task.trans h1.cpus_per_task,
   h2.min_cpus.trans h1.min_cpus, h2.max_cpus.trans h1.max_cpus,
   h2.pn_min_cpus.trans h1.pn_min_cpus, h2.environment.trans h1.environment⟩

theorem cpu_pe_ignored (ln : Nat) (s : List Char) (d : JobDescriptor) :
    sge_handle_pe true ln s d = (d, none) := by
  unfold sge_handle_pe
  rfl

theorem cpu_m (ln : Nat) (s : List Char) (d : JobDescriptor) :
    CpuPres d (sge_handle_m ln s d).1 := by
  unfold sge_handle_m
  repeat' first
    | exact cpuPres_refl d
    | (constructor <;> rfl)
    | (try dsimp only); split

theorem cpu_M (s : List Char) (d : JobDescriptor) :
    CpuPres d (sge_handle_M s d) := by
  unfold sge_handle_M
  repeat' first
    | exact cpuPres_refl d
    | (constructor <;> rfl)
    | (try dsimp only); split

theorem cpu_N (s : List Char) (d : JobDescriptor) :
    CpuPres d (sge_handle_N s d) := by
  unfold sge_handle_N
  repeat' first
    | exact cpuPres_refl d
    | (constructor <;> rfl)
    | (try dsimp only); split

theorem cpu_stdio (v : Char) (s : List Char) (d : JobDescriptor) (st : SgeScanState) :
    CpuPres d (sge_handle_stdio v s d st).1 := by
  unfold sge_handle_stdio
  repeat' first
    | exact cpuPres_refl d
    | (constructor <;> rfl)
    | (try dsimp only); split

theorem cpu_q (s : List Char) (d : JobDescriptor) :
    CpuPres d (sge_handle_q s d) := by
  unfold sge_handle_q
  repeat' first
    | exact cpuPres_refl d
    | (constructor <;> rfl)
    | (try dsimp only); split

theorem cpu_react (ln : Nat) (ns vs : List Char) (d : JobDescriptor) :
    CpuPres d (sge_react_clause ln ns vs d).1 := by
  unfold sge_react_clause
  repeat' first
    | exact cpuPres_refl d
    | (constructor <;> rfl)
    | (try dsimp only); split

theorem cpu_l_clauses (fuel ln : Nat) (s : List Char) (d : JobDescriptor) :
    CpuPres d (sge_l_clauses fuel ln s d).1 := by
  induction fuel generalizing s d with
  | zero => exact cpuPres_refl d
  | succ fuel ih =>
    unfold sge_l_clauses
    split
    · exact cpuPres_refl d
    · repeat' first
        | exact cpuPres_refl d
        | exact cpu_react ..
        | exact cpuPres_comp (cpu_react ..) (ih ..)
        | (try dsimp only); split

theorem cpu_directive (ln : Nat) (s : List Char) (d : JobDescriptor) (st : SgeScanState) :
    CpuPres d (sge_handle_directive true ln s d st).1 := by
  unfold sge_handle_directive
  split
  · rw [cpu_pe_ignored]
    exact cpuPres_refl d
  · repeat' first
      | exact cpuPres_refl d
      | exact cpu_m ..
      | exact cpu_M ..
      | exact cpu_N ..
      | exact cpu_stdio ..
      | exact cpu_q ..
      | (unfold sge_handle_l; exact cpu_l_clauses ..)
      | (try dsimp only); split

theorem cpu_scan_step (ln : Nat) (rest : List Char) (d : JobDescriptor) (st : SgeScanState) :
    CpuPres d (sge_scan_step true ln rest d st).1 := by
  unfold sge_scan_step
  split
  · split
    · exact cpu_directive ..
    · exact cpuPres_refl d
  · exact cpuPres_refl d

theorem cpu_scan (fuel ln : Nat) (rest : List Char) (d : JobDescriptor) (st : SgeScanState) :
    CpuPres d (sge_scan fuel true ln rest d st).1 := by
  induction fuel generalizing ln rest d st with
  | zero => exact cpuPres_refl d
  | succ fuel ih =>
    unfold sge_scan
    split
    · dsimp only
      split
      · exact cpu_scan_step ..
      · exact cpuPres_comp (cpu_scan_step ..) (ih ..)
    · exact cpuPres_refl d

theorem cpu_post_scan (d : JobDescriptor) (st : SgeScanState) :
    CpuPres d (sge_post_scan d st) := by
  unfold sge_post_scan
  repeat' first
    | exact cpuPres_refl d
    | (constructor <;> rfl)
    | (try dsimp only); split

theorem pres_post_scan (d : JobDescriptor) (st : SgeScanState) :
    Pres d (sge_post_scan d st) := by
  unfold sge_post_scan
  repeat' first
    | exact pres_refl d
    | (constructor <;> intros <;> rfl)
    | (try dsimp only); split

theorem pres_transform (d : JobDescriptor) : Pres d (sge_transform d).1 := by
  unfold sge_transform
  dsimp only
  split
  · exact pres_scan ..
  · exact pres_comp (pres_scan ..) (pres_post_scan ..)

theorem cpu_transform (d : JobDescriptor)
    (h : sge_has_cpu_counts d.environment = true) :
    CpuPres d (sge_transform d).1 := by
  unfold sge_transform
  rw [h]
  dsimp only
  split
  · exact cpu_scan ..
  · exact cpuPres_comp (cpu_scan ..) (cpu_post_scan ..)

theorem pres_scan_stage (d0 : JobDescriptor) : Pres d0 (js_scan_stage d0).1 := by
  unfold js_scan_stage
  split
  · exact pres_transform d0
  · exact pres_refl d0

theorem pres_mem_default (a : JobDescriptor) : Pres a (js_mem_default a) := by
  unfold js_mem_default
  split
  · constructor <;> intros <;> first | rfl | simp_all
  · exact pres_refl a

theorem pres_pre (d0 : JobDescriptor) : Pres d0 (job_submit_pre d0).1 := by
  unfold job_submit_pre
  dsimp only
  split
  · exact pres_scan_stage d0
  · split
    · exact pres_scan_stage d0
    · exact pres_comp (pres_scan_stage d0) (pres_mem_default _)

theorem cpu_scan_stage (d0 : JobDescriptor)
    (h : sge_has_cpu_counts d0.environment = true) :
    CpuPres d0 (js_scan_stage d0).1 := by
  unfold js_scan_stage
  split
  · exact cpu_transform d0 h
  · exact cpuPres_refl d0

theorem cpu_mem_default (a : JobDescriptor) : CpuPres a (js_mem_default a) := by
  unfold js_mem_default
  split
  · constructor <;> rfl
  · exact cpuPres_refl a

theorem cpu_pre (d0 : JobDescriptor)
    (h : sge_has_cpu_counts d0.environment = true) :
    CpuPres d0 (job_submit_pre d0).1 := by
  unfold job_submit_pre
  dsimp only
  split
  · exact cpu_scan_stage d0 h
  · split
    · exact cpu_scan_stage d0 h
    · exact cpuPres_comp (cpu_scan_stage d0 h) (cpu_mem_default _)

theorem account_shape {a : JobDescriptor} {uid : Nat}
    {grdb : Nat → Option (List Char)} {b : JobDescriptor}
    (h : job_submit_account a uid grdb = .ok b) :
    b = a ∨ (∃ g, grdb a.group_id = some g ∧ b = { a with account := some g } ∧
             job_submit_is_nonempty_str a.account = false) := by
  unfold job_submit_account at h
  split at h
  · rename_i hacct
    split at h
    · split at h
      · rename_i g hg
        right
        refine ⟨g, hg, ?_, by simpa using hacct⟩
        cases h
        rfl
      · cases h
    · split at h
      · cases h
      · left
        cases h
        rfl
  · left
    cases h
    rfl

structure PolPres (a b : JobDescriptor) : Prop where
  script : b.script = a.script
  mail_type : b.mail_type = a.mail_type
  mail_user : b.mail_user = a.mail_user
  name : b.name = a.name
  comment : b.comment = a.comment
  mem : b.pn_min_memory = a.pn_min_memory
  time_limit : b.time_limit = a.time_limit
  shared : b.shared = a.shared
  account : b.account = a.account
  num_tasks : b.num_tasks = a.num_tasks
  cpus_per_task : b.cpus_per_task = a.cpus_per_task
  min_cpus : b.min_cpus = a.min_cpus
  max_cpus : b.max_cpus = a.max_cpus
  pn_min_cpus : b.pn_min_cpus = a.pn_min_cpus
  environment : b.environment = a.environment
  group_id : b.group_id = a.group_id
  qos : job_submit_is_nonempty_str a.qos = true → b.qos = a.qos
  partition :
    job_submit_str_in_list ((a.partition.getD [])) udhpc_workgroup_token = false →
    b.partition = a.partition

theorem polPres_refl (a : JobDescriptor) : PolPres a a := by
  constructor <;> intros <;> rfl

theorem polPres_comp {a b c : JobDescriptor} (h1 : PolPres a b)
    (h2 : PolPres b c) : PolPres a c := by
  refine ⟨h2.script.trans h1.script, h2.mail_type.trans h1.mail_type,
    h2.mail_user.trans h1.mail_user, h2.name.trans h1.name,
    h2.comment.trans h1.comment, h2.mem.trans h1.mem,
    h2.time_limit.trans h1.time_limit, h2.shared.trans h1.shared,
    h2.account.trans h1.account, h2.num_tasks.trans h1.num_tasks,
    h2.cpus_per_task.trans h1.cpus_per_task, h2.min_cpus.trans h1.min_cpus,
    h2.max_cpus.trans h1.max_cpus, h2.pn_min_cpus.trans h1.pn_min_cpus,
    h2.environment.trans h1.environment, h2.group_id.trans h1.group_id, ?_, ?_⟩
  · intro h
    have hb := h1.qos h
    rw [h2.qos (by rw [hb]; exact h), hb]
  · intro h
    have hb := h1.partition h
    rw [h2.partition (by rw [hb]; exact h), hb]

theorem polpres_owned (a : JobDescriptor) : PolPres a (js_owned_qos a) := by
  unfold js_owned_qos
  split
  · constructor <;> intros <;> first | rfl | simp_all
  · exact polPres_refl a

theorem polpres_priority (isg : List Char → Bool) (a : JobDescriptor) :
    PolPres a (js_priority_qos isg a) := by
  unfold js_priority_qos
  split
  · split
    · constructor <;> intros <;> first | rfl | simp_all
    · exact polPres_refl a
  · exact polPres_refl a

theorem polpres_wg {grdb : Nat → Option (List Char)} {a b : JobDescriptor}
    (h : js_wg_subst grdb a = .ok b) : PolPres a b := by
  unfold js_wg_subst at h
  split at h
  · rename_i hgate
    split at h
    · split at h
      · cases h
        constructor <;> intros <;> first | rfl | simp_all
      · cases h
    · cases h
  · cases h
    exact polPres_refl a

theorem polpres_gpu {a b : JobDescriptor} (h : js_gpu a = .ok b) :
    PolPres a b := by
  unfold js_gpu at h
  split at h
  · split at h
    · cases h
    · split at h
      · cases h
        constructor <;> intros <;> rfl
      · cases h
        exact polPres_refl a
  · cases h
    exact polPres_refl a

theorem polpres_tmin (a : JobDescriptor) : PolPres a (js_time_min a) := by
  unfold js_time_min
  split
  · constructor <;> intros <;> rfl
  · exact polPres_refl a

theorem post_pres {a b : JobDescriptor} {grdb : Nat → Option (List Char)}
    {isg : List Char → Bool} (h : job_submit_post a grdb isg = .ok b) :
    PolPres a b := by
  unfold job_submit_post at h
  split at h
  · cases h
  · rename_i dA hw
    split at h
    · cases h
    · rename_i dB hg
      cases h
      exact polPres_comp (polPres_comp (polPres_comp (polpres_owned a)
        (polpres_priority isg _)) (polpres_wg hw))
        (polPres_comp (polpres_gpu hg) (polpres_tmin dB))

/-- C1 (amended): for an admitted submission, first-writer-wins holds for
mail mode, mail recipient, name, comment, memory limit, time limit,
sharing mode, account and QOS, each with the set-ness guard its handler
uses; the partition list is preserved when set, provided it does not
contain the workgroup placeholder token, which the policy pass rewrites;
the cpu/task-count fields are protected by the environment-marker test
(presence of SLURM_NTASKS= or SLURM_CPUS_PER_TASK= entries) rather than
by the fields themselves.  The stdio paths are excluded: -o, -e and -i
overwrite them unconditionally (see the counterexample). -/
theorem C1_first_writer_wins_amended
    (d : JobDescriptor) (uid : Nat) (grdb : Nat → Option (List Char))
    (isg : List Char → Bool) (d2 : JobDescriptor)
    (h : job_submit d uid grdb isg = .ok d2) :
    (d.mail_type ≠ 0 → d2.mail_type = d.mail_type) ∧
    (d.mail_user.isSome → d2.mail_user = d.mail_user) ∧
    (optSet d.name = true → d2.name = d.name) ∧
    (optSet d.comment = true → d2.comment = d.comment) ∧
    (optSet d.partition = true →
      job_submit_str_in_list (d.partition.getD []) udhpc_workgroup_token = false →
      d2.partition = d.partition) ∧
    (d.pn_min_memory ≠ NO_VAL64 → d2.pn_min_memory = d.pn_min_memory) ∧
    (d.time_limit ≠ NO_VAL → d2.time_limit = d.time_limit) ∧
    (d.shared ≠ NO_VAL16 → d2.shared = d.shared) ∧
    (job_submit_is_nonempty_str d.account = true → d2.account = d.account) ∧
    (job_submit_is_nonempty_str d.qos = true → d2.qos = d.qos) ∧
    (sge_has_cpu_counts d.environment = true →
      d2.num_tasks = d.num_tasks ∧ d2.cpus_per_task = d.cpus_per_task ∧
      d2.min_cpus = d.min_cpus ∧ d2.max_cpus = d.max_cpus ∧
      d2.pn_min_cpus = d.pn_min_cpus) := by
  unfold job_submit at h
  dsimp only at h
  split at h
  · cases h
  · split at h
    · cases h
    · rename_i d1 hacc
      have hP : Pres d (job_submit_pre d).1 := pres_pre d
      have hpost : PolPres d1 d2 := post_pres h
      have ha : d1.script = (job_submit_pre d).1.script ∧
          d1.mail_type = (job_submit_pre d).1.mail_type ∧
          d1.mail_user = (job_submit_pre d).1.mail_user ∧
          d1.name = (job_submit_pre d).1.name ∧
          d1.comment = (job_submit_pre d).1.comment ∧
          d1.partition = (job_submit_pre d).1.partition ∧
          d1.pn_min_memory = (job_submit_pre d).1.pn_min_memory ∧
          d1.time_limit = (job_submit_pre d).1.time_limit ∧
          d1.shared = (job_submit_pre d).1.shared ∧
          d1.qos = (job_submit_pre d).1.qos ∧
          d1.num_tasks = (job_submit_pre d).1.num_tasks ∧
          d1.cpus_per_task = (job_submit_pre d).1.cpus_per_task ∧
          d1.min_cpus = (job_submit_pre d).1.min_cpus ∧
          d1.max_cpus = (job_submit_pre d).1.max_cpus ∧
          d1.pn_min_cpus = (job_submit_pre d).1.pn_min_cpus ∧
          d1.environment = (job_submit_pre d).1.environment := by
        rcases account_shape hacc with hb | ⟨g, hg, hb, he⟩ <;> subst hb <;>
          exact ⟨rfl, rfl, rfl, rfl, rfl, rfl, rfl, rfl, rfl, rfl, rfl, rfl,
                 rfl, rfl, rfl, rfl⟩
      have haacct : job_submit_is_nonempty_str (job_submit_pre d).1.account = true →
          d1.account = (job_submit_pre d).1.account := by
        rcases account_shape hacc with hb | ⟨g, hg, hb, he⟩ <;> subst hb
        · exact fun _ => rfl
        · intro hx
          rw [he] at hx
          cases hx
      obtain ⟨e1, e2, e3, e4, e5, e6, e7, e8, e9, e10, e11, e12, e13, e14, e15, e16⟩ := ha
      refine ⟨?_, ?_, ?_, ?_, ?_, ?_, ?_, ?_, ?_, ?_, ?_⟩
      · intro hg
        rw [hpost.mail_type, e2, hP.mail_type hg]
      · intro hg
        rw [hpost.mail_user, e3, hP.mail_user hg]
      · intro hg
        rw [hpost.name, e4, hP.name hg]
      · intro hg
        rw [hpost.comment, e5, hP.comment hg]
      · intro hg hnl
        have hp1 : (job_submit_pre d).1.partition = d.partition := hP.partition hg
        rw [hpost.partition (by rw [e6, hp1]; exact hnl), e6, hp1]
      · intro hg
        rw [hpost.mem, e7, hP.mem hg]
      · intro hg
        rw [hpost.time_limit, e8, hP.time_limit hg]
      · intro hg
        rw [hpost.shared, e9, hP.shared hg]
      · intro hg
        have hp1 : (job_submit_pre d).1.account = d.account := hP.account
        rw [hpost.account, haacct (by rw [hp1]; exact hg), hp1]
      · intro hg
        have hp1 : (job_submit_pre d).1.qos = d.qos := hP.qos
        rw [hpost.qos (by rw [e10, hp1]; exact hg), e10, hp1]
      · intro hg
        have hc : CpuPres d (job_submit_pre d).1 := cpu_pre d hg
        exact ⟨by rw [hpost.num_tasks, e11, hc.num_tasks],
               by rw [hpost.cpus_per_task, e12, hc.cpus_per_task],
               by rw [hpost.min_cpus, e13, hc.min_cpus],
               by rw [hpost.max_cpus, e14, hc.max_cpus],
               by rw [hpost.pn_min_cpus, e15, hc.pn_min_cpus]⟩


/-! ## Claim theorems -/

/-- C1 counterexample: the claim as frozen is false on the code: with
stdout already set to pre.out, the -o new.txt directive overwrites it. -/
theorem C1_stdio_overwrite_counterexample :
    (sge_transform descStdioOverwrite).2 = none ∧
    (sge_transform descStdioOverwrite).1.std_out = some "new.txt".toList ∧
    (sge_transform descStdioOverwrite).1.std_out ≠ descStdioOverwrite.std_out := by
  refine ⟨rfl, rfl, ?_⟩
  decide

/-- C1 witness: a descriptor with every guarded field pre-set is admitted
unchanged in all of them. -/
theorem C1_first_writer_wins_witness :
    c1wExpected.mail_type = c1wDesc.mail_type ∧
    c1wExpected.mail_user = c1wDesc.mail_user ∧
    c1wExpected.name = c1wDesc.name ∧
    c1wExpected.comment = c1wDesc.comment ∧
    c1wExpected.partition = c1wDesc.partition ∧
    c1wExpected.pn_min_memory = c1wDesc.pn_min_memory ∧
    c1wExpected.time_limit = c1wDesc.time_limit ∧
    c1wExpected.shared = c1wDesc.shared ∧
    c1wExpected.account = c1wDesc.account ∧
    c1wExpected.qos = c1wDesc.qos ∧
    c1wExpected.num_tasks = c1wDesc.num_tasks := by
  have h := C1_first_writer_wins_amended c1wDesc 1000 c1wGrdb c1wIsg c1wExpected rfl
  exact ⟨h.1 (by decide), h.2.1 (by decide), h.2.2.1 (by decide),
    h.2.2.2.1 (by decide), h.2.2.2.2.1 (by decide) (by decide),
    h.2.2.2.2.2.1 (by decide), h.2.2.2.2.2.2.1 (by decide),
    h.2.2.2.2.2.2.2.1 (by decide), h.2.2.2.2.2.2.2.2.1 (by decide),
    h.2.2.2.2.2.2.2.2.2.1 (by decide),
    (h.2.2.2.2.2.2.2.2.2.2 (by decide)).1⟩

/-- C2 counterexample: for -pe mpi 2-8 the transform succeeds but sets
min_cpus to 8, not to the range lower bound 2 as the claim states. -/
theorem C2_min_cpus_counterexample :
    (sge_transform descMpi).2 = none ∧
    (sge_transform descMpi).1.min_cpus = 8 ∧
    (sge_transform descMpi).1.min_cpus ≠ 2 := by
  refine ⟨rfl, rfl, ?_⟩
  decide

/-- C2 (amended): -pe mpi 2-8 on a descriptor with no pre-existing
cpu/task counts succeeds and sets num_tasks = 8 (the range upper bound,
within the closed range), cpus_per_task = 1, and min_cpus = 8, equal to
the chosen task count rather than the range lower bound. -/
theorem C2_pe_mpi_range_amended :
    (sge_transform descMpi).2 = none ∧
    (sge_transform descMpi).1.num_tasks = 8 ∧
    2 ≤ (sge_transform descMpi).1.num_tasks ∧
    (sge_transform descMpi).1.num_tasks ≤ 8 ∧
    (sge_transform descMpi).1.cpus_per_task = 1 ∧
    (sge_transform descMpi).1.min_cpus = 8 ∧
    (sge_transform descMpi).1.pn_min_cpus = 8 := by
  exact ⟨rfl, rfl, by decide, by decide, rfl, rfl, rfl⟩

/-- C3: evaluation of the code at the failing input.  -pe threads 4 sets
the descriptor fields as claimed (cpus_per_task = 4, num_tasks = 1,
min_cpus = 4), but the environment entry SLURM_CPUS_PER_TASK is appended
with the num_tasks value 1, not the cpus_per_task value 4: the appends
all pass num_tasks, contradicting the variable name and the intent
stated in the adjacent comment (sbatch's init_envs). -/
theorem C3_pe_threads_env_eval :
    (sge_transform descThreads).2 = none ∧
    (sge_transform descThreads).1.cpus_per_task = 4 ∧
    (sge_transform descThreads).1.num_tasks = 1 ∧
    (sge_transform descThreads).1.min_cpus = 4 ∧
    (sge_transform descThreads).1.environment =
      ["SLURM_NTASKS=1", "SLURM_NPROCS=1", "SLURM_CPUS_PER_TASK=1"] ∧
    (sge_transform descThreads).1.environment ≠
      ["SLURM_NTASKS=1", "SLURM_NPROCS=1", "SLURM_CPUS_PER_TASK=4"] := by
  refine ⟨rfl, rfl, rfl, rfl, rfl, ?_⟩
  decide

/-- C4 counterexample: on input 2,x the scan aborts with a parse error
after accumulating 2 slots, and the exported slot count is 2, not the
claimed fallback 1. -/
theorem C4_fallback_counterexample :
    nslots_scan ("2,x".toList.length + 1) "2,x".toList 0 = (2, false) ∧
    nslots_env_value "2,x".toList = "2" ∧
    nslots_env_value "2,x".toList ≠ "1" := by
  refine ⟨rfl, rfl, ?_⟩
  decide

/-- C4 (amended): the decoder sums count times repeat (repeat defaulting
to one) over the comma-separated terms, so 2(x3),4 decodes to 10 and
1(x2),2(x3) to 8; a parse error aborts the scan, and the exported slot
count falls back to 1 exactly when the accumulated sum is zero (in
particular when the error precedes any complete term); a positive
partial sum accumulated before the error is exported as-is. -/
theorem C4_nslots_decoder_amended :
    nslots_scan ("2(x3),4".toList.length + 1) "2(x3),4".toList 0 = (10, true) ∧
    nslots_env_value "2(x3),4".toList = "10" ∧
    nslots_scan ("1(x2),2(x3)".toList.length + 1) "1(x2),2(x3)".toList 0 = (8, true) ∧
    (∀ l : List Char,
      (nslots_scan (l.length + 1) l 0).1 = 0 → nslots_env_value l = "1") := by
  refine ⟨rfl, rfl, rfl, ?_⟩
  intro l h
  unfold nslots_env_value
  dsimp only
  rw [h]
  decide

/-- C4 witness: a first-term parse error exports the fallback 1. -/
theorem C4_nslots_decoder_witness : nslots_env_value "x".toList = "1" :=
  C4_nslots_decoder_amended.2.2.2 "x".toList (by decide)

/-- C5: the memory converter yields 4096 MiB for 4G and 3815 MiB for 4g
(ceiling of 4 billion bytes in MiB); a value with the binary G suffix
converts to MiB exactly (no remainder); positive results below the
configured minimum clamp up to it; and the -l handler stores the result
with the per-cpu flag exactly when the memory limit was unset. -/
theorem C5_memory_converter :
    job_submit_sge_parse_memory "4G".toList = some 4096 ∧
    job_submit_sge_parse_memory "4g".toList = some 3815 ∧
    (∀ n : Nat, mem_to_mib ((n : Int) * 1073741824) = (n : Int) * 1024 ∧
       ((n : Int) * 1073741824) % 1048576 = 0) ∧
    (∀ m : Int, 0 < m → m < (udhpc_min_mem_mb : Int) →
       mem_clamp m = (udhpc_min_mem_mb : Int)) ∧
    (∀ v : Nat, (sge_transform (descMem v)).1.pn_min_memory =
       if v = NO_VAL64 then Nat.lor 4096 MEM_PER_CPU else v) ∧
    (sge_transform descMemDec).1.pn_min_memory = Nat.lor 3815 MEM_PER_CPU := by
  refine ⟨rfl, rfl, ?_, ?_, ?_, rfl⟩
  · intro n
    have h : (n : Int) * 1073741824 = 1048576 * ((n : Int) * 1024) := by ring
    constructor
    · rw [mem_to_mib, h, Int.mul_ediv_cancel_left _ (by norm_num),
        Int.mul_emod_right]
      simp
    · rw [h, Int.mul_emod_right]
  · intro m h1 h2
    rw [mem_clamp, if_pos ⟨h1, h2⟩]
  · intro v
    by_cases hv : v = NO_VAL64
    · subst hv
      rw [if_pos rfl]
      rfl
    · rw [if_neg hv]
      exact (pres_transform (descMem v)).mem hv

/-- C5 witness: a positive result below the minimum clamps up to it. -/
theorem C5_memory_converter_witness : mem_clamp 5 = (udhpc_min_mem_mb : Int) :=
  C5_memory_converter.2.2.2.1 5 (by decide) (by decide)

/-- C6: the duration converter parses an H:M:S triple or bare seconds
and rounds up to whole minutes: 01:30:00 gives 90 minutes and 90 seconds
give 2 minutes; the -l handler stores the result in the descriptor time
limit exactly when it was unset. -/
theorem C6_duration_converter :
    job_submit_sge_parse_time "01:30:00".toList = some 90 ∧
    job_submit_sge_parse_time "90".toList = some 2 ∧
    (∀ v : Nat, (sge_transform (descTime v)).1.time_limit =
       if v = NO_VAL then 90 else v) ∧
    (sge_transform descTimeSec).1.time_limit = 2 := by
  refine ⟨rfl, rfl, ?_, rfl⟩
  intro v
  by_cases hv : v = NO_VAL
  · subst hv
    rw [if_pos rfl]
    rfl
  · rw [if_neg hv]
    exact (pres_transform (descTime v)).time_limit hv

/-- C7: with -j n seen and no explicit stderr, stderr is derived from
stdout: a name longer than and ending in .out has the suffix replaced by
.err, any other set name gets .err appended, and an unset stdout falls
back to the scheduler-default template; in particular run.out gives
run.err. -/
theorem C7_join_no_stderr_rule :
    (∀ o : Option (List Char),
      (sge_transform (descJoinNo o)).1.std_err =
        some (match o with
          | some p =>
            if 4 < p.length ∧ p.drop (p.length - 4) = ".out".toList then
              p.take (p.length - 4) ++ ".err".toList
            else p ++ ".err".toList
          | none => "slurm-%j.err".toList)) ∧
    (sge_transform (descJoinNo (some "run.out".toList))).1.std_err =
      some "run.err".toList := by
  constructor
  · intro o
    have base : (sge_transform (descJoinNo o)).1 =
        sge_post_scan (descJoinNo o)
          { should_join_stdout_stderr := false, is_set_stderr := false } := rfl
    rw [base]
    cases o with
    | none => rfl
    | some p =>
      unfold sge_post_scan descJoinNo
      dsimp only
      by_cases hc : 4 < p.length ∧ p.drop (p.length - 4) = ".out".toList
      · simp only [if_pos hc]
        rfl
      · simp only [if_neg hc]
        rfl
  · rfl

/-- C8: when the account is unset at admission and the earlier stages
pass, a submitting gid below the configured base is rejected for
non-privileged submitters with exactly the message the claim states; a
gid at or above the base resolves through the group database into the
admitted account, and an unresolvable gid rejects the submission. -/
theorem C8_account_resolution
    (d d1 : JobDescriptor) (uid : Nat) (grdb : Nat → Option (List Char))
    (isg : List Char → Bool)
    (hpre : job_submit_pre d = (d1, none))
    (hacct : job_submit_is_nonempty_str d.account = false) :
    (d.group_id < udhpc_base_gid → uid ≠ 0 →
      job_submit d uid grdb isg =
        .error "Please choose a workgroup before submitting a job") ∧
    (udhpc_base_gid ≤ d.group_id → grdb d.group_id = none →
      job_submit d uid grdb isg =
        .error ("Unable to resolve job submission gid " ++ toString d.group_id)) ∧
    (∀ (g : List Char) (d2 : JobDescriptor),
      udhpc_base_gid ≤ d.group_id → grdb d.group_id = some g →
      job_submit d uid grdb isg = .ok d2 → d2.account = some g) := by
  have hP : Pres d d1 := by
    have h := pres_pre d
    rw [hpre] at h
    exact h
  have hA : job_submit_is_nonempty_str d1.account = false := by
    rw [hP.account]
    exact hacct
  have hG : d1.group_id = d.group_id := hP.group_id
  refine ⟨?_, ?_, ?_⟩
  · intro hlt hne
    unfold job_submit
    dsimp only
    rw [hpre]
    dsimp only
    have hstep : job_submit_account d1 uid grdb =
        .error "Please choose a workgroup before submitting a job" := by
      unfold job_submit_account
      rw [hA, hG]
      simp [Nat.not_le.mpr hlt, hne]
    rw [hstep]
  · intro hge hnone
    unfold job_submit
    dsimp only
    rw [hpre]
    dsimp only
    have hstep : job_submit_account d1 uid grdb =
        .error ("Unable to resolve job submission gid " ++ toString d.group_id) := by
      unfold job_submit_account
      rw [hA, hG]
      simp [hge, hnone]
    rw [hstep]
  · intro g d2 hge hsome hok
    unfold job_submit at hok
    dsimp only at hok
    rw [hpre] at hok
    dsimp only at hok
    have hstep : job_submit_account d1 uid grdb =
        .ok { d1 with account := some g } := by
      unfold job_submit_account
      rw [hA, hG]
      simp [hge, hsome]
    rw [hstep] at hok
    dsimp only at hok
    have hpost := post_pres hok
    rw [hpost.account]

/-- C8 witness: a gid of 100 with uid 1001 is rejected with the
workgroup message; a gid of 600 with an empty group database is rejected
as unresolvable; with a database mapping 600 to grp600 the admitted
descriptor carries that account. -/
theorem C8_account_resolution_witness :
    job_submit c8dA 1001 c8grdbN c1wIsg =
      .error "Please choose a workgroup before submitting a job" ∧
    job_submit c8dB 1001 c8grdbN c1wIsg =
      .error "Unable to resolve job submission gid 600" ∧
    c8dB2.account = some "grp600".toList := by
  have hA := C8_account_resolution c8dA c8dA1 1001 c8grdbN c1wIsg rfl (by decide)
  have hB := C8_account_resolution c8dB c8dB1 1001 c8grdbN c1wIsg rfl (by decide)
  have hC := C8_account_resolution c8dB c8dB1 1001 c8grdbS c1wIsg rfl (by decide)
  refine ⟨hA.1 (by decide) (by decide), ?_, ?_⟩
  · have h := hB.2.1 (by decide) rfl
    exact h.trans rfl
  · exact hC.2.2 "grp600".toList c8dB2 (by decide) (by decide) rfl

theorem strAppendAssoc (a b c : String) : a ++ b ++ c = a ++ (b ++ c) := by
  cases a with
  | mk x =>
    cases b with
    | mk y =>
      cases c with
      | mk z =>
        show String.mk (x ++ y ++ z) = String.mk (x ++ (y ++ z))
        rw [List.append_assoc]

theorem ensureDir_ok {fs g : Fs} {p : List String} (h : ensureDir fs p = .ok g) :
    g p = some .dir ∧ ∀ q, q ≠ p → g q = fs q := by
  unfold ensureDir at h
  split at h
  · cases h
    exact ⟨by simp [Fs.set], fun q hq => by simp [Fs.set, hq]⟩
  · rename_i hd
    cases h
    exact ⟨hd, fun q hq => rfl⟩
  · cases h

theorem ensureDir_idem {g : Fs} {p : List String} (h : g p = some .dir) :
    ensureDir g p = .ok g := by
  unfold ensureDir
  rw [h]

/-- C9: the scratch path is a pure function of the base, job id and step
id: base/12345 for the batch step of job 12345 and base/12345/3 for its
step 3; and the create-if-missing derivation is idempotent: a second run
on the resulting filesystem succeeds with the same path and changes
nothing. -/
theorem C9_scratch_directory :
    (∀ b : String, tmpdir_path b 12345 SLURM_BATCH_SCRIPT = b ++ "/12345") ∧
    (∀ b : String, tmpdir_path b 12345 3 = b ++ "/12345/3") ∧
    (∀ (fs : Fs) (b : String) (j s : Nat) (r : String × Fs),
      get_tmpdir fs b j s = .ok r → get_tmpdir r.2 b j s = .ok r) := by
  refine ⟨?_, ?_, ?_⟩
  · intro b
    unfold tmpdir_path
    rw [if_pos rfl]
    show b ++ "/" ++ "12345" = b ++ "/12345"
    rw [strAppendAssoc]
    rfl
  · intro b
    unfold tmpdir_path
    rw [if_neg (by decide)]
    show b ++ "/" ++ "12345" ++ "/" ++ "3" = b ++ "/12345/3"
    rw [strAppendAssoc, strAppendAssoc, strAppendAssoc]
    rfl
  · intro fs b j s r h
    unfold get_tmpdir at h ⊢
    split at h
    · rename_i hbase
      split at h
      · cases h
      · rename_i fs1 he1
        obtain ⟨hp1, hf1⟩ := ensureDir_ok he1
        split at h
        · rename_i hbatch
          cases h
          dsimp only
          rw [hf1 [b] (by simp), hbase]
          rw [ensureDir_idem hp1]
          dsimp only
          rw [if_pos hbatch]
        · rename_i hstep
          split at h
          · cases h
          · rename_i fs2 he2
            obtain ⟨hp2, hf2⟩ := ensureDir_ok he2
            cases h
            dsimp only
            rw [hf2 [b] (by simp), hf1 [b] (by simp), hbase]
            rw [ensureDir_idem (by rw [hf2 [b, toString j] (by simp)]; exact hp1)]
            dsimp only
            rw [if_neg hstep]
            rw [ensureDir_idem hp2]
    · cases h

/-- C9 witness: creating the scratch directory for job 12345 in a
filesystem that already holds it succeeds again with the same path and
the same filesystem. -/
theorem C9_scratch_directory_witness :
    get_tmpdir c9fs1 "/tmp" 12345 SLURM_BATCH_SCRIPT = .ok ("/tmp/12345", c9fs1) :=
  C9_scratch_directory.2.2 c9fs0 "/tmp" 12345 SLURM_BATCH_SCRIPT
    ("/tmp/12345", c9fs1) rfl

/-- C10: the directive scanner and interpreter never modifies the script
text: on both the success and the error outcome the returned descriptor
holds exactly the script it was given. -/
theorem C10_script_frame :
    ∀ d : JobDescriptor, (sge_transform d).1.script = d.script :=
  fun d => (pres_transform d).script

end UdSlurm
